import Mathlib

/-!
Verification of the saga engine (saga events handler, subscriber, MySQL saga
store, AMQP send options) against its natural-language specification.

The Go sources are embedded shallowly: maps become association lists, SQL
tables become lists of rows, a transaction becomes a locally built state that
is installed only on commit, and fallible calls are driven by explicit fault
oracles.  Each definition mirrors one source function; definitions written
from the specification (because the defining file is not part of the
sources) say so in their doc comment.
-/

namespace Brigadier

/-- The registry-scoped header key used to route messages to saga instances. -/
def sagaUIDKey : String := "saga_uid"

/-- Message headers: a mapping from string keys to string values, modelled as
an association list with unique keys maintained by `setHeader`. -/
abbrev Headers := List (String × String)

/-- Look up a header value (first binding wins, as in a Go map). -/
def getHeader : Headers → String → Option String
  | [], _ => none
  | (k, v) :: rest, key => if k = key then some v else getHeader rest key

/-- Write a header value in place: replace the first binding of the key, or
append a fresh binding when the key is absent.  This is the embedding of a
Go map assignment `headers[key] = value`. -/
def setHeader : Headers → String → String → Headers
  | [], key, value => [(key, value)]
  | (k, v) :: rest, key, value =>
    if k = key then (key, value) :: rest else (k, v) :: setHeader rest key value

/-- A (group, kind) pair identifying a payload type on the wire. -/
structure GroupKind where
  group : String
  kind : String
deriving DecidableEq, Repr

/-- Message payloads.  `user` covers ordinary registered payloads carrying an
opaque body; `childCompleted` is the system contract
`SagaChildCompletedEvent` with its `saga_uid` json field
(src/pkg/saga/contracts/contracts.go). -/
inductive Payload where
  | user (gk : GroupKind) (body : String)
  | childCompleted (sagaUID : String)
deriving DecidableEq, Repr

/-- The (group, kind) of a payload, as reported by the type registry. -/
def Payload.groupKind : Payload → GroupKind
  | .user gk _ => gk
  | .childCompleted _ => ⟨"systemSaga", "SagaChildCompletedEvent"⟩

/-- Whether a payload is the system `SagaChildCompletedEvent` contract. -/
def Payload.isChildCompleted : Payload → Bool
  | .childCompleted _ => true
  | .user _ _ => false

/-- Saga instance status (spec section 4.5). -/
inductive SagaStatus where
  | created
  | inProgress
  | compensating
  | completed
  | failed
  | recovering
deriving DecidableEq, Repr

/-- The string stored in the `status` column, matching `Status().String()`. -/
def SagaStatus.str : SagaStatus → String
  | .created => "created"
  | .inProgress => "in_progress"
  | .compensating => "compensating"
  | .completed => "completed"
  | .failed => "failed"
  | .recovering => "recovering"

/-- One history event of a saga instance, with the fields read by the MySQL
store when persisting a row (`m.ID`, `m.Name`, `m.Type`, `m.SagaStatus`,
payload, `m.Description`, `m.OriginSource`, `m.CreatedAt`) plus the trace
UID the handler attaches to received events. -/
structure HistoryEvent where
  id : String
  name : String
  typ : String
  sagaStatus : SagaStatus
  payload : Payload
  description : String
  originSource : String
  traceUID : String
  createdAt : Nat
deriving DecidableEq, Repr

/-- An in-memory saga instance: the fields constructed by
`instanceFromModel` in src/saga/mysqlstore.go together with the saga payload
object. -/
structure Instance where
  uid : String
  parentID : String
  saga : Payload
  status : SagaStatus
  startedAt : Nat
  updatedAt : Nat
  history : List HistoryEvent
deriving DecidableEq, Repr

/-- Modelled from the spec: `Progress()` keeps an `InProgress` saga in
`InProgress` and moves `Recovering` back to `InProgress` (section 4.5); the
saga state-machine implementation itself is not among the sources.  Other
statuses are left unchanged (the handler ignores the transition outcome). -/
def progress (inst : Instance) : Instance :=
  if inst.status = .inProgress ∨ inst.status = .recovering then
    { inst with status := .inProgress }
  else inst

/-- An incoming envelope as seen by the saga events handler: payload,
headers, UID and origin queue. -/
structure IncomingMessage where
  uid : String
  origin : String
  headers : Headers
  payload : Payload
deriving DecidableEq, Repr

/-- An outgoing message built by `message.NewOutcomingMessage(payload,
message.WithHeaders(headers))`. -/
structure OutMsg where
  payload : Payload
  headers : Headers
deriving DecidableEq, Repr

/-- One delivery collected by the saga context during a handler run. -/
structure Delivery where
  payload : Payload
deriving DecidableEq, Repr

/-- The saga store visible to the handler: saga UID to instance. -/
abbrev StoreState := List (String × Instance)

/-- `Store.GetById` at the level of the handler model: `none` when the saga
is absent (the MySQL store returns `nil, nil` on `sql.ErrNoRows`). -/
def storeGet : StoreState → String → Option Instance
  | [], _ => none
  | (k, inst) :: rest, key => if k = key then some inst else storeGet rest key

/-- `Store.Update` at the level of the handler model: overwrite (or add) the
entry keyed by the instance UID. -/
def storeSet : StoreState → Instance → StoreState
  | [], inst => [(inst.uid, inst)]
  | (k, i) :: rest, inst =>
    if k = inst.uid then (inst.uid, inst) :: rest else (k, i) :: storeSet rest inst

/-- Modelled from the spec: `SagaUIDService.ExtractSagaUID` (its file is not
among the sources) reads the registry-scoped `saga_uid` header; a missing
header is an error (spec section 4.6 step 1). -/
def extractSagaUID (hdrs : Headers) : Option String :=
  getHeader hdrs sagaUIDKey

/-- Modelled from the spec and the call sites in
src/pkg/saga/contracts/contracts.go: `SagaUIDService.AddSagaId(headers, uid)`
writes `saga_uid = uid` into the given header map in place (its return value
is never used, so the write must mutate the map). -/
def addSagaId (hdrs : Headers) (uid : String) : Headers :=
  setHeader hdrs sagaUIDKey uid

/-- A user saga event handler, as obtained from `EventHandlers()`: it reads
and mutates the instance through the saga context and registers deliveries.
An error aborts the turn. -/
abbrev SagaHandler := Instance → Except String (Instance × List Delivery)

/-- The collaborators of one handler turn: the saga's handler table, the
fault oracle for `execCtx.Send` (indexed by send order), the fault oracle
for `Store.Update`, and the id supply for new history events. -/
structure SagaEnv where
  eventHandlers : GroupKind → Option SagaHandler
  sendErr : Nat → Option String
  updateErr : Option String
  freshId : Nat → String

/-- Errors a turn can end with, mirroring the error returns of
`SagaEventsHandler.Handle`. -/
inductive TurnError where
  | missingSagaUID
  | sagaNotFound (uid : String)
  | sagaAlreadyCompleted (uid : String)
  | handlerError (e : String)
  | sendError (e : String)
  | updateError (e : String)
deriving DecidableEq, Repr

/-- Everything observable about one handler turn: the outcome, whether a
user handler ran, the resulting store, the messages sent, the number of
missing-handler warnings logged, and the final contents of the incoming
envelope's header map (which the handler writes into in place). -/
structure TurnResult where
  error : Option TurnError
  handlerInvoked : Bool
  store : StoreState
  sent : List OutMsg
  warnings : Nat
  headers : Headers
deriving DecidableEq, Repr

/-- The delivery loop of `Handle` (contracts.go lines 168-176): for each
delivery, stamp `saga_uid = instance.UID()` into the incoming message's
header map, build the outgoing message from that same map, and send it; a
send failure aborts the loop.  Returns the error if any, the header map
after the loop, the messages actually sent, and the next send index. -/
def sendLoop (env : SagaEnv) (uid : String) :
    List Delivery → Headers → List OutMsg → Nat →
    Option String × Headers × List OutMsg × Nat
  | [], hdrs, sent, n => (none, hdrs, sent, n)
  | d :: rest, hdrs, sent, n =>
    let hdrs2 := addSagaId hdrs uid
    let msg : OutMsg := ⟨d.payload, hdrs2⟩
    match env.sendErr n with
    | some e => (some e, hdrs2, sent, n + 1)
    | none => sendLoop env uid rest hdrs2 (sent ++ [msg]) (n + 1)

/-- Modelled from the spec: `AddHistoryEvent` (the saga instance
implementation is not among the sources) appends an event tagged with the
current status, the origin and the trace UID of the triggering message
(spec sections 3 and 4.6 step 9); ids come from the turn's id supply. -/
def mkHistoryEvent (env : SagaEnv) (idx : Nat) (st : SagaStatus)
    (payload : Payload) (origin trace : String) : HistoryEvent :=
  { id := env.freshId idx
    name := payload.groupKind.kind
    typ := "event"
    sagaStatus := st
    payload := payload
    description := ""
    originSource := origin
    traceUID := trace
    createdAt := idx }

/-- The tail of `Handle` (contracts.go lines 181-203): append the incoming
event and every delivery to the history, persist via `Store.Update`, and on
a completed instance with a parent stamp `saga_uid = ParentID` into the
incoming header map and send a `SagaChildCompletedEvent` carrying the
instance's own UID. -/
def finishTurn (env : SagaEnv) (msg : IncomingMessage) (st : StoreState)
    (inst : Instance) (ds : List Delivery) (hdrs : Headers)
    (sent : List OutMsg) (sendIdx : Nat) (invoked : Bool) (warns : Nat) :
    TurnResult :=
  let receivedEv := mkHistoryEvent env 0 inst.status msg.payload msg.origin msg.uid
  let deliveryEvs := (List.range ds.length).zip ds |>.map
    (fun p => mkHistoryEvent env (p.1 + 1) inst.status p.2.payload "" "")
  let inst2 := { inst with history := inst.history ++ [receivedEv] ++ deliveryEvs }
  match env.updateErr with
  | some e =>
    { error := some (.updateError e), handlerInvoked := invoked, store := st
      sent := sent, warnings := warns, headers := hdrs }
  | none =>
    let st2 := storeSet st inst2
    if inst2.status = .completed ∧ inst2.parentID ≠ "" then
      let hdrs2 := addSagaId hdrs inst2.parentID
      let childMsg : OutMsg := ⟨.childCompleted inst2.uid, hdrs2⟩
      match env.sendErr sendIdx with
      | some e =>
        { error := some (.sendError e), handlerInvoked := invoked, store := st2
          sent := sent, warnings := warns, headers := hdrs2 }
      | none =>
        { error := none, handlerInvoked := invoked, store := st2
          sent := sent ++ [childMsg], warnings := warns, headers := hdrs2 }
    else
      { error := none, handlerInvoked := invoked, store := st2
        sent := sent, warnings := warns, headers := hdrs }

/-- `SagaEventsHandler.Handle` (contracts.go lines 115-204), after the
distributed mutex has been acquired (locking and its release are outside
this pure model): extract the saga UID, load the instance, reject an absent
or completed saga, `Progress()` it, run the matching user handler (a
missing handler only logs a warning), send the collected deliveries, append
history, persist, and notify a parent on completion. -/
def handleTurn (env : SagaEnv) (msg : IncomingMessage) (st : StoreState) :
    TurnResult :=
  match extractSagaUID msg.headers with
  | none =>
    { error := some .missingSagaUID, handlerInvoked := false, store := st
      sent := [], warnings := 0, headers := msg.headers }
  | some sagaId =>
    match storeGet st sagaId with
    | none =>
      { error := some (.sagaNotFound sagaId), handlerInvoked := false
        store := st, sent := [], warnings := 0, headers := msg.headers }
    | some inst0 =>
      if inst0.status = .completed then
        { error := some (.sagaAlreadyCompleted sagaId), handlerInvoked := false
          store := st, sent := [], warnings := 0, headers := msg.headers }
      else
        let inst1 := progress inst0
        match env.eventHandlers msg.payload.groupKind with
        | some h =>
          match h inst1 with
          | .error e =>
            { error := some (.handlerError e), handlerInvoked := true
              store := st, sent := [], warnings := 0, headers := msg.headers }
          | .ok (inst2, ds) =>
            match sendLoop env inst2.uid ds msg.headers [] 0 with
            | (some e, hdrs2, sent2, _) =>
              { error := some (.sendError e), handlerInvoked := true
                store := st, sent := sent2, warnings := 0, headers := hdrs2 }
            | (none, hdrs2, sent2, n2) =>
              finishTurn env msg st inst2 ds hdrs2 sent2 n2 true 0
        | none =>
          finishTurn env msg st inst1 [] msg.headers [] 0 false 1

/-- The per-message deadline of the subscriber, in seconds
(`packageProcessingMaxTime` in the subscriber sources). -/
def packageProcessingMaxTime : Nat := 60

/-- The observable outcome of `subscriber.processPackage`: the deadline (in
seconds) of the derived context the processor runs under, whether the
envelope was acked, and whether a processor error was logged. -/
structure PkgOutcome where
  deadlineSeconds : Nat
  acked : Bool
  loggedError : Bool
deriving DecidableEq, Repr

/-- `subscriber.processPackage`: run the processor under a context with a
`packageProcessingMaxTime` deadline; on a processor error log it and return
without acking; otherwise ack the envelope. -/
def processPackage (processErr : Option String) : PkgOutcome :=
  { deadlineSeconds := packageProcessingMaxTime
    acked := processErr.isNone
    loggedError := processErr.isSome }

/-- A full saga turn as driven by the subscriber: the processor outcome of
`processPackage` applied to the saga events handler, paired with the turn's
result.  The envelope is acked exactly when the handler returned no error. -/
def sagaProcessPackage (env : SagaEnv) (msg : IncomingMessage)
    (st : StoreState) : PkgOutcome × TurnResult :=
  let r := handleTurn env msg st
  (processPackage (r.error.map (fun _ => "turn error")), r)

/-- What `subscriber.Stop` is observed to do: the tick (in seconds from the
call) at which it returned, whether `Transport.Disconnect` was called, and
whether it returned because the shutdown context expired. -/
structure StopResult where
  returnedAtTick : Nat
  disconnected : Bool
  ctxExpired : Bool
deriving DecidableEq, Repr

/-- The polling loop of `subscriber.Stop` over discrete one-second ticks.
`busy t` is `BusyWorkers()` at tick `t`; `remaining` is the number of ticks
left before the shutdown context expires.  While workers are busy the loop
waits one tick; when the context expires first it returns `nil` without
disconnecting; when the busy count reaches zero it disconnects. -/
def stopGo (busy : Nat → Nat) : Nat → Nat → StopResult
  | 0, t =>
    if busy t = 0 then ⟨t, true, false⟩ else ⟨t, false, true⟩
  | remaining + 1, t =>
    if busy t = 0 then ⟨t, true, false⟩ else stopGo busy remaining (t + 1)

/-- `subscriber.Stop(shutdownCtx)`: poll `BusyWorkers()` once per second
until it reaches zero (then `Transport.Disconnect`) or until the shutdown
context expires after `deadline` ticks (then return without disconnecting). -/
def subscriberStop (busy : Nat → Nat) (deadline : Nat) : StopResult :=
  stopGo busy deadline 0

/-- AMQP send options (src/unnamed/part_004). -/
structure SendOptions where
  Mandatory : Bool
  Immediate : Bool
deriving DecidableEq, Repr

/-- `WithMandatory()` from src/unnamed/part_004: sets `Mandatory`. -/
def WithMandatory (opts : SendOptions) : SendOptions :=
  { opts with Mandatory := true }

/-- `WithImmediate()` from src/unnamed/part_004, exactly as written there:
the body assigns `opts.Mandatory = true`. -/
def WithImmediate (opts : SendOptions) : SendOptions :=
  { opts with Mandatory := true }

/-- The option-folding prelude of `amqpTransport.Send`
(src/pkg/pubsub/transport/plugins/amqp/amqp.go): start from the zero-valued
`SendOptions` and apply each option in order; the resulting `Mandatory` and
`Immediate` fields are passed to `Publish`. -/
def applySendOpts (opts : List (SendOptions → SendOptions)) : SendOptions :=
  opts.foldl (fun o f => f o) ⟨false, false⟩

/-- One row of the `saga` table (columns of `initMysqlTables`). -/
structure SagaRow where
  id : String
  parentId : String
  name : String
  payload : String
  status : String
  startedAt : Nat
  updatedAt : Nat
deriving DecidableEq, Repr

/-- One row of the `saga_history` table (insert column order of
`mysqlStore.Update`). -/
structure HistoryRow where
  id : String
  sagaId : String
  name : String
  typ : String
  status : String
  payload : String
  description : String
  originSource : String
  createdAt : Nat
deriving DecidableEq, Repr

/-- The two-table MySQL schema. -/
structure DB where
  sagas : List SagaRow
  history : List HistoryRow
deriving DecidableEq, Repr

/-- `json.Marshal` of a payload, modelled as an injective self-describing
encoding. -/
def serializePayload : Payload → String
  | .user gk body => gk.group ++ "." ++ gk.kind ++ ":" ++ body
  | .childCompleted uid => "systemSaga.SagaChildCompletedEvent:" ++ uid

/-- The `UPDATE saga SET parent_id, name, payload, status, started_at,
updated_at WHERE id` statement of `mysqlStore.Update`, applied to one row. -/
def overwriteSagaRow (inst : Instance) (r : SagaRow) : SagaRow :=
  if r.id = inst.uid then
    { r with
      parentId := inst.parentID
      name := inst.saga.groupKind.kind
      payload := serializePayload inst.saga
      status := inst.status.str
      startedAt := inst.startedAt
      updatedAt := inst.updatedAt }
  else r

/-- The history row inserted for an in-memory event by `mysqlStore.Update`. -/
def historyRowOf (sagaUid : String) (m : HistoryEvent) : HistoryRow :=
  { id := m.id
    sagaId := sagaUid
    name := m.name
    typ := m.typ
    status := m.sagaStatus.str
    payload := serializePayload m.payload
    description := m.description
    originSource := m.originSource
    createdAt := m.createdAt }

/-- The insert loop of `mysqlStore.Update`: walk the in-memory history
events, skip those whose id was already read from `saga_history`, and
insert the rest into the transaction's view of the table.  Each executed
insert consumes one fault-oracle index and fails on a primary-key
collision; any failure aborts (the caller then rolls back). -/
def insertLoop (fault : Nat → Bool) (ids : List String) (sagaUid : String) :
    List HistoryEvent → List HistoryRow → Nat →
    Except String (List HistoryRow × Nat)
  | [], hist, n => .ok (hist, n)
  | m :: rest, hist, n =>
    if ids.contains m.id then insertLoop fault ids sagaUid rest hist n
    else if fault n then .error "insert failed"
    else if hist.any (fun r => r.id = m.id) then .error "duplicate key"
    else insertLoop fault ids sagaUid rest (hist ++ [historyRowOf sagaUid m]) (n + 1)

/-- The distinct ids read back by the `SELECT id FROM saga_history WHERE
saga_id=?` step of `mysqlStore.Update` (collected into a Go map, hence
deduplicated). -/
def persistedIds (db : DB) (uid : String) : List String :=
  ((db.history.filter (fun r => r.sagaId = uid)).map (fun r => r.id)).dedup

/-- `mysqlStore.Update` (src/saga/mysqlstore.go lines 67-162): inside one
transaction, overwrite the saga row, read the ids already stored in
`saga_history` for this saga, and — only when fewer distinct ids are stored
than events are held in memory — insert the events whose ids are not yet
stored; on any error roll the transaction back and return the database
unchanged.  Fault indices: 0 = `Begin`, 1 = the `UPDATE`, 2 = the id
`SELECT`, 3... = the inserts, and the index after the last insert =
`Commit`. -/
def mysqlUpdate (fault : Nat → Bool) (db : DB) (inst : Instance) :
    Option String × DB :=
  if fault 0 then (some "begin failed", db)
  else if fault 1 then (some "update failed", db)
  else
    let sagas2 := db.sagas.map (overwriteSagaRow inst)
    if fault 2 then (some "select failed", db)
    else
      let ids := persistedIds db inst.uid
      let inserted :=
        if ids.length < inst.history.length then
          insertLoop fault ids inst.uid inst.history db.history 3
        else .ok (db.history, 3)
      match inserted with
      | .error e => (some e, db)
      | .ok (hist2, n) =>
        if fault n then (some "commit failed", db)
        else (none, ⟨sagas2, hist2⟩)

/-- The filter configuration record filled by `GetByFilter`'s option
functions (the fields read in src/saga/mysqlstore.go). -/
structure FilterOptions where
  sagaId : String
  status : String
  sagaType : String
deriving DecidableEq, Repr

/-- A filter option mutates the configuration record. -/
abbrev FilterOption := FilterOptions → FilterOptions

/-- Modelled from the spec: the `SagaUID` filter constructor (the file
defining the filter options is not among the sources; section 4.7 lists the
recognized filters). -/
def withSagaId (v : String) : FilterOption :=
  fun o => { o with sagaId := v }

/-- Modelled from the spec: the `Status` filter constructor. -/
def withStatus (v : String) : FilterOption :=
  fun o => { o with status := v }

/-- Modelled from the spec: the `SagaType` filter constructor. -/
def withSagaType (v : String) : FilterOption :=
  fun o => { o with sagaType := v }

/-- The WHERE conditions built by `GetByFilter`, one per non-empty filter
field, in source order. -/
def filterConditions (opts : FilterOptions) : List String :=
  (if opts.sagaId ≠ "" then [" s.id = " ++ opts.sagaId] else []) ++
  (if opts.status ≠ "" then [" s.status = " ++ opts.status] else []) ++
  (if opts.sagaType ≠ "" then [" s.name = " ++ opts.sagaType] else [])

/-- Whether a saga row satisfies the non-empty filter fields. -/
def rowMatches (opts : FilterOptions) (r : SagaRow) : Bool :=
  (opts.sagaId = "" ∨ r.id = opts.sagaId) ∧
  (opts.status = "" ∨ r.status = opts.status) ∧
  (opts.sagaType = "" ∨ r.name = opts.sagaType)

/-- `mysqlStore.GetByFilter` (src/saga/mysqlstore.go lines 200-317): reject
an empty filter list; fold the options into the configuration record;
reject the case where every condition is empty; otherwise issue exactly one
left-join query and return each matching saga with its history rows.  The
second component is the log of executed queries, so the error paths are
visibly query-free. -/
def getByFilter (db : DB) (filters : List FilterOption) :
    Except String (List (SagaRow × List HistoryRow)) × List String :=
  if filters.isEmpty then
    (.error "No filters found, you have to specify at least one", [])
  else
    let opts := filters.foldl (fun o f => f o) ⟨"", "", ""⟩
    let conditions := filterConditions opts
    if conditions.isEmpty then
      (.error "All specified filters are empty, you have to specify at least one", [])
    else
      let query := "SELECT ... FROM saga s LEFT JOIN saga_history sh WHERE"
        ++ String.join conditions
      let rows := db.sagas.filter (rowMatches opts)
      let res := rows.map
        (fun r => (r, db.history.filter (fun h => h.sagaId = r.id)))
      (.ok res, [query])

/-! Concrete fixtures used to evaluate the definitions on closed inputs. -/

/-- A deterministic id supply for history events. -/
def testFreshId : Nat → String := fun n => "h" ++ toString n

/-- A saga environment whose saga defines no event handlers and whose store
and transport never fail. -/
def hEnv0 : SagaEnv :=
  { eventHandlers := fun _ => none, sendErr := fun _ => none
    updateErr := none, freshId := testFreshId }

/-- The (group, kind) of the test event. -/
def fooGK : GroupKind := ⟨"demo", "FooEvent"⟩

/-- A user handler that completes the saga and emits nothing. -/
def completingHandler : SagaHandler :=
  fun i => .ok ({ i with status := .completed }, [])

/-- A user handler that leaves the saga as is and emits one command. -/
def deliveringHandler : SagaHandler :=
  fun i => .ok (i, [⟨.user ⟨"demo", "BarCommand"⟩ "b"⟩])

/-- Environment routing the test event to `completingHandler`. -/
def hEnvC : SagaEnv :=
  { eventHandlers := fun gk => if gk = fooGK then some completingHandler else none
    sendErr := fun _ => none, updateErr := none, freshId := testFreshId }

/-- Environment routing the test event to `deliveringHandler`. -/
def hEnvD : SagaEnv :=
  { eventHandlers := fun gk => if gk = fooGK then some deliveringHandler else none
    sendErr := fun _ => none, updateErr := none, freshId := testFreshId }

/-- An in-progress instance without a parent. -/
def instA : Instance := ⟨"s1", "", .user ⟨"demo", "Foo"⟩ "x", .inProgress, 0, 0, []⟩

/-- An in-progress instance whose parent is `s0`. -/
def instPar : Instance := ⟨"s1", "s0", .user ⟨"demo", "Foo"⟩ "x", .inProgress, 0, 0, []⟩

/-- A completed instance. -/
def instDone : Instance := ⟨"s1", "", .user ⟨"demo", "Foo"⟩ "x", .completed, 0, 0, []⟩

/-- A test envelope addressed to saga `s1`. -/
def msgFoo : IncomingMessage := ⟨"m1", "queue1", [(sagaUIDKey, "s1")], .user fooGK "e"⟩

/-- Store holding the in-progress instance. -/
def storeA : StoreState := [("s1", instA)]

/-- Store holding the instance with a parent. -/
def storePar : StoreState := [("s1", instPar)]

/-- Store holding the completed instance. -/
def storeDone : StoreState := [("s1", instDone)]

/-- A persisted history event with id `a`. -/
def evA : HistoryEvent :=
  ⟨"a", "Ev", "event", .inProgress, .user ⟨"demo", "Ev"⟩ "p", "", "", "", 0⟩

/-- An in-memory history event with id `c`, not yet persisted. -/
def evC : HistoryEvent :=
  ⟨"c", "Ev", "event", .inProgress, .user ⟨"demo", "Ev"⟩ "q", "", "", "", 1⟩

/-- Persisted history row with id `a` for saga `s1`. -/
def rowA : HistoryRow := ⟨"a", "s1", "Ev", "event", "in_progress", "p", "", "", 0⟩

/-- Persisted history row with id `b` for saga `s1`. -/
def rowB : HistoryRow := ⟨"b", "s1", "Ev", "event", "in_progress", "p", "", "", 0⟩

/-- The saga table row of `s1`. -/
def sagaRow1 : SagaRow := ⟨"s1", "", "Foo", "p", "in_progress", 0, 0⟩

/-- Database where saga `s1` already has two persisted history rows. -/
def dbC : DB := ⟨[sagaRow1], [rowA, rowB]⟩

/-- Database where saga `s1` has one persisted history row. -/
def dbW : DB := ⟨[sagaRow1], [rowA]⟩

/-- An instance whose in-memory history is only the fresh event `c`. -/
def instC1 : Instance :=
  ⟨"s1", "", .user ⟨"demo", "Foo"⟩ "x", .inProgress, 0, 1, [evC]⟩

/-- An instance holding the persisted event `a` plus the fresh event `c`. -/
def instW : Instance :=
  ⟨"s1", "", .user ⟨"demo", "Foo"⟩ "x", .inProgress, 0, 1, [evA, evC]⟩

/-- The fault oracle that never fails. -/
def noFault : Nat → Bool := fun _ => false

/-- The fault oracle failing the `Begin` call. -/
def beginFault : Nat → Bool := fun n => n == 0

/-- A busy-worker count that never drains. -/
def busyOne : Nat → Nat := fun _ => 1

/-- A busy-worker count that drains at tick 2. -/
def busyW : Nat → Nat := fun t => 2 - t

/-- An empty database. -/
def dbEmpty : DB := ⟨[], []⟩

/-! Helper lemmas shared by the claim proofs. -/

theorem getHeader_setHeader (h : Headers) (k v : String) :
    getHeader (setHeader h k v) k = some v := by
  induction h with
  | nil => simp [setHeader, getHeader]
  | cons p rest ih =>
    obtain ⟨k1, v1⟩ := p
    by_cases hk : k1 = k
    · simp [setHeader, hk, getHeader]
    · simp [setHeader, hk, getHeader, ih]

theorem setHeader_eq_self (h : Headers) (k v : String)
    (hv : getHeader h k = some v) : setHeader h k v = h := by
  induction h with
  | nil => simp [getHeader] at hv
  | cons p rest ih =>
    obtain ⟨k1, v1⟩ := p
    by_cases hk : k1 = k
    · subst hk
      simp [getHeader] at hv
      simp [setHeader, hv]
    · simp [getHeader, hk] at hv
      simp [setHeader, hk, ih hv]

theorem progress_status_ne_completed (i : Instance)
    (hi : i.status ≠ .completed) : (progress i).status ≠ .completed := by
  unfold progress
  split <;> simp [hi]

theorem progress_uid (i : Instance) : (progress i).uid = i.uid := by
  unfold progress; split <;> rfl

theorem progress_parentID (i : Instance) : (progress i).parentID = i.parentID := by
  unfold progress; split <;> rfl

theorem progress_history (i : Instance) : (progress i).history = i.history := by
  unfold progress; split <;> rfl

theorem handleTurn_absent (env : SagaEnv) (msg : IncomingMessage)
    (st : StoreState) (sagaId : String)
    (hex : extractSagaUID msg.headers = some sagaId)
    (hget : storeGet st sagaId = none) :
    handleTurn env msg st =
      ⟨some (.sagaNotFound sagaId), false, st, [], 0, msg.headers⟩ := by
  unfold handleTurn
  rw [hex]
  simp [hget]

theorem handleTurn_completed (env : SagaEnv) (msg : IncomingMessage)
    (st : StoreState) (sagaId : String) (inst : Instance)
    (hex : extractSagaUID msg.headers = some sagaId)
    (hget : storeGet st sagaId = some inst)
    (hc : inst.status = .completed) :
    handleTurn env msg st =
      ⟨some (.sagaAlreadyCompleted sagaId), false, st, [], 0, msg.headers⟩ := by
  unfold handleTurn
  rw [hex]
  simp [hget, hc]

theorem sendLoop_stable (env : SagaEnv) (uid : String)
    (hsend : ∀ n, env.sendErr n = none) (hdrs : Headers)
    (hh : getHeader hdrs sagaUIDKey = some uid) :
    ∀ (ds : List Delivery) (sent : List OutMsg) (n : Nat),
      sendLoop env uid ds hdrs sent n =
        (none, hdrs, sent ++ ds.map (fun d => ⟨d.payload, hdrs⟩), n + ds.length) := by
  intro ds
  induction ds with
  | nil => intro sent n; simp [sendLoop]
  | cons d rest ih =>
    intro sent n
    have hstamp : addSagaId hdrs uid = hdrs := setHeader_eq_self hdrs _ _ hh
    simp only [sendLoop, hstamp, hsend n]
    rw [ih]
    simp [List.append_assoc]
    omega

theorem handleTurn_with_handler (env : SagaEnv) (msg : IncomingMessage)
    (st : StoreState) (sagaId : String) (inst : Instance) (h : SagaHandler)
    (inst2 : Instance) (ds : List Delivery)
    (hex : extractSagaUID msg.headers = some sagaId)
    (hget : storeGet st sagaId = some inst)
    (hnc : inst.status ≠ .completed)
    (hh : env.eventHandlers msg.payload.groupKind = some h)
    (hrun : h (progress inst) = .ok (inst2, ds))
    (hgk : getHeader msg.headers sagaUIDKey = some inst2.uid)
    (hsend : ∀ n, env.sendErr n = none) :
    handleTurn env msg st =
      finishTurn env msg st inst2 ds msg.headers
        (ds.map (fun d => ⟨d.payload, msg.headers⟩)) ds.length true 0 := by
  unfold handleTurn
  rw [hex]
  simp only [hget, hnc, hh, hrun]
  rw [sendLoop_stable env inst2.uid hsend msg.headers hgk ds [] 0]
  simp [hnc]

theorem finishTurn_sent (env : SagaEnv) (msg : IncomingMessage)
    (st : StoreState) (inst : Instance) (ds : List Delivery) (hdrs : Headers)
    (sent : List OutMsg) (sendIdx : Nat) (invoked : Bool) (warns : Nat)
    (hupd : env.updateErr = none) :
    (finishTurn env msg st inst ds hdrs sent sendIdx invoked warns).sent = sent ∨
    (finishTurn env msg st inst ds hdrs sent sendIdx invoked warns).sent =
      sent ++ [⟨.childCompleted inst.uid, addSagaId hdrs inst.parentID⟩] := by
  unfold finishTurn
  rw [hupd]
  simp only
  split
  · cases henv : env.sendErr sendIdx <;> simp
  · simp

theorem stopGo_all_busy (busy : Nat → Nat) :
    ∀ (r t : Nat), (∀ u, t ≤ u → u ≤ t + r → busy u ≠ 0) →
      stopGo busy r t = ⟨t + r, false, true⟩ := by
  intro r
  induction r with
  | zero =>
    intro t hb
    have h0 : busy t ≠ 0 := hb t le_rfl (by omega)
    simp [stopGo, h0]
  | succ r ih =>
    intro t hb
    have h0 : busy t ≠ 0 := hb t le_rfl (by omega)
    have h2 := ih (t + 1) (fun u hu1 hu2 => hb u (by omega) (by omega))
    simp only [stopGo, h0, if_neg]
    rw [show t + (r + 1) = (t + 1) + r by omega]
    exact h2

theorem stopGo_finds (busy : Nat → Nat) :
    ∀ (r t t0 : Nat), t ≤ t0 → t0 ≤ t + r → busy t0 = 0 →
      (∀ u, t ≤ u → u < t0 → busy u ≠ 0) →
      stopGo busy r t = ⟨t0, true, false⟩ := by
  intro r
  induction r with
  | zero =>
    intro t t0 h1 h2 h0 _
    have ht : t0 = t := by omega
    subst ht
    simp [stopGo, h0]
  | succ r ih =>
    intro t t0 h1 h2 h0 hmin
    by_cases hbt : busy t = 0
    · have ht : t0 = t := by
        by_contra hne
        exact hmin t le_rfl (by omega) hbt
      subst ht
      simp [stopGo, h0]
    · have ht : t + 1 ≤ t0 := by
        rcases Nat.eq_or_lt_of_le h1 with rfl | hlt
        · exact absurd h0 hbt
        · omega
      simp only [stopGo, hbt, if_neg]
      exact ih (t + 1) t0 ht (by omega) h0
        (fun u hu1 hu2 => hmin u (by omega) hu2)

theorem insertLoop_appends (fault : Nat → Bool) (ids : List String)
    (uid : String) :
    ∀ (evs : List HistoryEvent) (hist : List HistoryRow) (n : Nat)
      (hist2 : List HistoryRow) (n2 : Nat),
      insertLoop fault ids uid evs hist n = .ok (hist2, n2) →
      ∃ s, hist2 = hist ++ s := by
  intro evs
  induction evs with
  | nil =>
    intro hist n hist2 n2 hok
    simp only [insertLoop, Except.ok.injEq, Prod.mk.injEq] at hok
    exact ⟨[], by simp [hok.1.symm]⟩
  | cons m rest ih =>
    intro hist n hist2 n2 hok
    simp only [insertLoop] at hok
    by_cases hc : ids.contains m.id
    · rw [if_pos hc] at hok
      exact ih hist n hist2 n2 hok
    · rw [if_neg hc] at hok
      by_cases hf : fault n
      · simp [hf] at hok
      · rw [if_neg hf] at hok
        by_cases hd : hist.any (fun r => r.id = m.id)
        · simp [hd] at hok
        · rw [if_neg hd] at hok
          obtain ⟨s, hs⟩ := ih _ _ hist2 n2 hok
          exact ⟨historyRowOf uid m :: s, by simp [hs]⟩

theorem insertLoop_exact (fault : Nat → Bool)
    (hf : ∀ n, fault n = false) (ids : List String) (uid : String) :
    ∀ (evs : List HistoryEvent) (hist : List HistoryRow) (n : Nat),
      (∀ m ∈ evs, ids.contains m.id = false →
        hist.any (fun r => r.id = m.id) = false) →
      (evs.map (fun m => m.id)).Nodup →
      insertLoop fault ids uid evs hist n =
        .ok (hist ++ (evs.filter (fun m => !ids.contains m.id)).map
              (historyRowOf uid),
             n + (evs.filter (fun m => !ids.contains m.id)).length) := by
  intro evs
  induction evs with
  | nil => intro hist n _ _; simp [insertLoop]
  | cons m rest ih =>
    intro hist n hfresh hnodup
    simp only [List.map_cons, List.nodup_cons] at hnodup
    by_cases hc : ids.contains m.id = true
    · have hneg : (!ids.contains m.id) = false := by rw [hc]; rfl
      have hfilter :
          (m :: rest).filter (fun m => !ids.contains m.id) =
          rest.filter (fun m => !ids.contains m.id) := by
        rw [List.filter_cons, hneg]
        simp
      rw [hfilter]
      simp only [insertLoop, if_pos hc]
      exact ih hist n
        (fun m2 hm2 => hfresh m2 (List.mem_cons_of_mem m hm2)) hnodup.2
    · have hcb : ids.contains m.id = false := by
        revert hc; cases ids.contains m.id <;> simp
      have hpos : (!ids.contains m.id) = true := by rw [hcb]; rfl
      have hmf : hist.any (fun r => r.id = m.id) = false :=
        hfresh m (List.mem_cons_self m rest) hcb
      have hfilter :
          (m :: rest).filter (fun m => !ids.contains m.id) =
          m :: rest.filter (fun m => !ids.contains m.id) := by
        rw [List.filter_cons, hpos]
        simp
      rw [hfilter]
      have hfn : ¬ (fault n = true) := by rw [hf n]; simp
      have hmfn : ¬ (hist.any (fun r => r.id = m.id) = true) := by
        rw [hmf]; simp
      simp only [insertLoop, if_neg hc, if_neg hfn, if_neg hmfn]
      have hrest := ih (hist ++ [historyRowOf uid m]) (n + 1)
        (fun m2 hm2 hc2 => by
          rw [List.any_append]
          have h1 := hfresh m2 (List.mem_cons_of_mem m hm2) hc2
          have h2 : m2.id ≠ m.id := by
            intro hid
            exact hnodup.1 (hid ▸ (List.mem_map_of_mem (fun m => m.id) hm2))
          rw [h1]
          simp only [Bool.false_or, List.any_cons, List.any_nil, Bool.or_false]
          rw [show (historyRowOf uid m).id = m.id from rfl]
          exact decide_eq_false (fun hh => h2 hh.symm))
        hnodup.2
      rw [hrest]
      simp only [List.map_cons, List.length_cons, Except.ok.injEq,
        Prod.mk.injEq]
      constructor
      · simp [List.append_assoc]
      · omega

theorem mysqlUpdate_err_unchanged (fault : Nat → Bool) (db : DB)
    (inst : Instance) (e : String)
    (he : (mysqlUpdate fault db inst).1 = some e) :
    (mysqlUpdate fault db inst).2 = db := by
  unfold mysqlUpdate at he ⊢
  by_cases h0 : fault 0 = true
  · simp [h0]
  · by_cases h1 : fault 1 = true
    · simp [h0, h1]
    · by_cases h2 : fault 2 = true
      · simp [h0, h1, h2]
      · simp only [h0, h1, h2, if_neg, if_false, Bool.false_eq_true] at he ⊢
        cases hins : (if (persistedIds db inst.uid).length < inst.history.length
          then insertLoop fault (persistedIds db inst.uid) inst.uid
            inst.history db.history 3
          else .ok (db.history, 3)) with
        | error e2 => simp [hins]
        | ok p =>
          obtain ⟨hist2, n⟩ := p
          simp only [hins] at he ⊢
          by_cases hcn : fault n = true
          · simp [hcn]
          · simp [hcn] at he

theorem mysqlUpdate_ok_shape (fault : Nat → Bool) (db : DB)
    (inst : Instance)
    (hok : (mysqlUpdate fault db inst).1 = none) :
    ∃ newRows, (mysqlUpdate fault db inst).2 =
      ⟨db.sagas.map (overwriteSagaRow inst), db.history ++ newRows⟩ := by
  unfold mysqlUpdate at hok ⊢
  by_cases h0 : fault 0 = true
  · simp [h0] at hok
  · by_cases h1 : fault 1 = true
    · simp [h0, h1] at hok
    · by_cases h2 : fault 2 = true
      · simp [h0, h1, h2] at hok
      · simp only [h0, h1, h2, if_neg, if_false, Bool.false_eq_true] at hok ⊢
        cases hins : (if (persistedIds db inst.uid).length < inst.history.length
          then insertLoop fault (persistedIds db inst.uid) inst.uid
            inst.history db.history 3
          else .ok (db.history, 3)) with
        | error e2 => simp [hins] at hok
        | ok p =>
          obtain ⟨hist2, n⟩ := p
          simp only [hins] at hok ⊢
          by_cases hcn : fault n = true
          · simp [hcn] at hok
          · simp only [hcn, if_neg, if_false, Bool.false_eq_true]
            have hap : ∃ s, hist2 = db.history ++ s := by
              by_cases hg :
                  (persistedIds db inst.uid).length < inst.history.length
              · rw [if_pos hg] at hins
                exact insertLoop_appends fault (persistedIds db inst.uid)
                  inst.uid inst.history db.history 3 hist2 n hins
              · rw [if_neg hg] at hins
                simp only [Except.ok.injEq, Prod.mk.injEq] at hins
                exact ⟨[], by simp [hins.1.symm]⟩
            obtain ⟨s, hs⟩ := hap
            exact ⟨s, by simp [hs]⟩

/-! Claim theorems. -/

/-- C8: for every incoming envelope, `processPackage` runs the processor
under a derived context with a 60-second deadline and acks the envelope if
and only if the processor returns no error; on a processor error the
envelope is not acked and the error is only logged. -/
theorem c8_processPackage_deadline_and_ack (e : Option String) :
    (processPackage e).deadlineSeconds = packageProcessingMaxTime ∧
    packageProcessingMaxTime = 60 ∧
    ((processPackage e).acked = true ↔ e = none) ∧
    ((processPackage e).loggedError = true ↔ e ≠ none) := by
  cases e <;> simp [processPackage, packageProcessingMaxTime]

/-- C9 (code evaluated at the failing input): applying `WithImmediate()` to
zero-valued send options sets `Mandatory` and leaves `Immediate` false,
both directly and through the option fold of `amqpTransport.Send`, while
the claim (and the evident intent of the function's name) is that it set
`Immediate` and leave `Mandatory` unchanged.  `WithMandatory()` behaves as
claimed. -/
theorem c9_withImmediate_sets_mandatory :
    WithImmediate ⟨false, false⟩ = ⟨true, false⟩ ∧
    applySendOpts [WithImmediate] = ⟨true, false⟩ ∧
    (WithImmediate ⟨false, false⟩).Immediate = false ∧
    WithMandatory ⟨false, false⟩ = ⟨true, false⟩ := by
  refine ⟨rfl, rfl, rfl, rfl⟩

/-- C2: once the saga UID has been extracted (the mutex step is outside the
pure model), a turn whose saga is absent from the store fails with
`SagaNotFound` and a turn whose saga is already completed fails with
`SagaAlreadyCompleted`; in both cases no user handler runs, nothing is
sent, and the store is unchanged. -/
theorem c2_absent_or_completed_rejected (env : SagaEnv) (msg : IncomingMessage)
    (st : StoreState) (sagaId : String)
    (hex : extractSagaUID msg.headers = some sagaId) :
    (storeGet st sagaId = none →
      handleTurn env msg st =
        ⟨some (.sagaNotFound sagaId), false, st, [], 0, msg.headers⟩) ∧
    (∀ inst : Instance, storeGet st sagaId = some inst →
      inst.status = .completed →
      handleTurn env msg st =
        ⟨some (.sagaAlreadyCompleted sagaId), false, st, [], 0, msg.headers⟩) := by
  constructor
  · intro hget
    exact handleTurn_absent env msg st sagaId hex hget
  · intro inst hget hc
    exact handleTurn_completed env msg st sagaId inst hex hget hc

/-- Witness for C2 at concrete inputs: an empty store yields `SagaNotFound`,
a store holding a completed instance yields `SagaAlreadyCompleted`. -/
theorem c2_witness :
    handleTurn hEnv0 msgFoo [] =
      ⟨some (.sagaNotFound "s1"), false, [], [], 0, msgFoo.headers⟩ ∧
    handleTurn hEnv0 msgFoo storeDone =
      ⟨some (.sagaAlreadyCompleted "s1"), false, storeDone, [], 0, msgFoo.headers⟩ :=
  ⟨(c2_absent_or_completed_rejected hEnv0 msgFoo [] "s1" (by decide)).1 (by decide),
   (c2_absent_or_completed_rejected hEnv0 msgFoo storeDone "s1" (by decide)).2
     instDone (by decide) (by decide)⟩

/-- C3 counterexample: on a completed saga the turn is fatal and the
envelope is NOT acked (the claim asserts it is acked), as evaluated on a
concrete completed instance. -/
theorem c3_counterexample :
    (sagaProcessPackage hEnv0 msgFoo storeDone).2.error =
      some (.sagaAlreadyCompleted "s1") ∧
    (sagaProcessPackage hEnv0 msgFoo storeDone).1.acked = false := by
  constructor <;> decide

/-- C3 as amended: for every envelope whose saga instance is already
completed, the turn is fatal and the envelope is not acked, so the broker
redelivers it; the store is unchanged. -/
theorem c3_completed_not_acked (env : SagaEnv) (msg : IncomingMessage)
    (st : StoreState) (sagaId : String) (inst : Instance)
    (hex : extractSagaUID msg.headers = some sagaId)
    (hget : storeGet st sagaId = some inst)
    (hc : inst.status = .completed) :
    (sagaProcessPackage env msg st).2.error =
      some (.sagaAlreadyCompleted sagaId) ∧
    (sagaProcessPackage env msg st).1.acked = false ∧
    (sagaProcessPackage env msg st).2.store = st := by
  have h := handleTurn_completed env msg st sagaId inst hex hget hc
  simp [sagaProcessPackage, processPackage, h]

/-- Witness for C3's amended theorem at the concrete completed instance. -/
theorem c3_witness :
    (sagaProcessPackage hEnv0 msgFoo storeDone).2.error =
      some (.sagaAlreadyCompleted "s1") ∧
    (sagaProcessPackage hEnv0 msgFoo storeDone).1.acked = false ∧
    (sagaProcessPackage hEnv0 msgFoo storeDone).2.store = storeDone :=
  c3_completed_not_acked hEnv0 msgFoo storeDone "s1" instDone
    (by decide) (by decide) (by decide)

/-- C4: when the (group, kind) of the incoming envelope has no entry in the
saga's handler table, the turn does not fail: exactly one warning is
logged, no user handler runs, nothing is sent, the incoming event is still
appended to the instance's history (with the message's origin and trace
UID), the instance is still persisted via `Store.Update`, and the envelope
is acked. -/
theorem c4_missing_handler_still_persists (env : SagaEnv)
    (msg : IncomingMessage) (st : StoreState) (sagaId : String)
    (inst : Instance)
    (hex : extractSagaUID msg.headers = some sagaId)
    (hget : storeGet st sagaId = some inst)
    (hnc : inst.status ≠ .completed)
    (hno : env.eventHandlers msg.payload.groupKind = none)
    (hupd : env.updateErr = none) :
    (sagaProcessPackage env msg st).1.acked = true ∧
    (sagaProcessPackage env msg st).2.error = none ∧
    (sagaProcessPackage env msg st).2.warnings = 1 ∧
    (sagaProcessPackage env msg st).2.handlerInvoked = false ∧
    (sagaProcessPackage env msg st).2.sent = [] ∧
    ∃ ev : HistoryEvent, ev.payload = msg.payload ∧
      ev.originSource = msg.origin ∧ ev.traceUID = msg.uid ∧
      (sagaProcessPackage env msg st).2.store =
        storeSet st { progress inst with history := inst.history ++ [ev] } := by
  have hpn := progress_status_ne_completed inst hnc
  have hrun : handleTurn env msg st =
      { error := none, handlerInvoked := false
        store := storeSet st { progress inst with
          history := inst.history ++
            [mkHistoryEvent env 0 (progress inst).status msg.payload msg.origin msg.uid] }
        sent := [], warnings := 1, headers := msg.headers } := by
    unfold handleTurn
    rw [hex]
    simp only [hget, hnc, hno]
    unfold finishTurn
    simp [hupd, hpn, progress_history]
  refine ⟨?_, ?_, ?_, ?_, ?_,
    ⟨mkHistoryEvent env 0 (progress inst).status msg.payload msg.origin msg.uid,
      rfl, rfl, rfl, ?_⟩⟩ <;>
    simp [sagaProcessPackage, processPackage, hrun]

/-- Witness for C4: an envelope whose (group, kind) the saga does not
handle, evaluated on the concrete in-progress instance. -/
theorem c4_witness :
    (sagaProcessPackage hEnv0 msgFoo storeA).1.acked = true ∧
    (sagaProcessPackage hEnv0 msgFoo storeA).2.error = none ∧
    (sagaProcessPackage hEnv0 msgFoo storeA).2.warnings = 1 ∧
    (sagaProcessPackage hEnv0 msgFoo storeA).2.handlerInvoked = false ∧
    (sagaProcessPackage hEnv0 msgFoo storeA).2.sent = [] ∧
    ∃ ev : HistoryEvent, ev.payload = msgFoo.payload ∧
      ev.originSource = msgFoo.origin ∧ ev.traceUID = msgFoo.uid ∧
      (sagaProcessPackage hEnv0 msgFoo storeA).2.store =
        storeSet storeA { progress instA with history := instA.history ++ [ev] } :=
  c4_missing_handler_still_persists hEnv0 msgFoo storeA "s1" instA
    (by decide) (by decide) (by decide) rfl rfl

/-- C5 counterexample: on the concrete turn that completes saga `s1` whose
parent is `s0`, the emitted `SagaChildCompletedEvent` carries the child's
own UID `s1` in its `saga_uid` payload field (the header is `s0`), while
the claim asserts the payload field equals the ParentUID `s0`. -/
theorem c5_counterexample :
    (handleTurn hEnvC msgFoo storePar).error = none ∧
    (handleTurn hEnvC msgFoo storePar).sent =
      [⟨.childCompleted "s1", [(sagaUIDKey, "s0")]⟩] ∧
    instPar.parentID = "s0" ∧ ("s1" : String) ≠ "s0" := by
  refine ⟨by decide, by decide, by decide, by decide⟩

/-- C5 as amended: when a turn leaves the instance `Completed` with a
non-empty ParentUID, the handler emits exactly one outbound
`SagaChildCompletedEvent`; its `saga_uid` header equals the ParentUID but
its `saga_uid` payload field equals the instance's own UID. -/
theorem c5_child_completed_event (env : SagaEnv) (msg : IncomingMessage)
    (st : StoreState) (sagaId : String) (inst : Instance) (h : SagaHandler)
    (inst2 : Instance) (ds : List Delivery)
    (hex : extractSagaUID msg.headers = some sagaId)
    (hget : storeGet st sagaId = some inst)
    (hnc : inst.status ≠ .completed)
    (hh : env.eventHandlers msg.payload.groupKind = some h)
    (hrun : h (progress inst) = .ok (inst2, ds))
    (huid : inst.uid = sagaId)
    (huid2 : inst2.uid = inst.uid)
    (hsend : ∀ n, env.sendErr n = none)
    (hupd : env.updateErr = none)
    (hcomp : inst2.status = .completed)
    (hpar : inst2.parentID ≠ "")
    (hds : ∀ d ∈ ds, d.payload.isChildCompleted = false) :
    (handleTurn env msg st).error = none ∧
    (handleTurn env msg st).sent.filter (fun m => m.payload.isChildCompleted) =
      [⟨.childCompleted inst2.uid, addSagaId msg.headers inst2.parentID⟩] ∧
    getHeader (addSagaId msg.headers inst2.parentID) sagaUIDKey =
      some inst2.parentID := by
  have hgk : getHeader msg.headers sagaUIDKey = some inst2.uid := by
    rw [huid2, huid]; exact hex
  have hred := handleTurn_with_handler env msg st sagaId inst h inst2 ds
    hex hget hnc hh hrun hgk hsend
  rw [hred]
  unfold finishTurn
  simp only [hupd, hcomp, hpar, ne_eq, not_false_iff, and_self, if_pos,
    hsend ds.length]
  refine ⟨by trivial, ?_, getHeader_setHeader _ _ _⟩
  rw [List.filter_append]
  have hleft :
      (ds.map (fun d => (⟨d.payload, msg.headers⟩ : OutMsg))).filter
        (fun m => m.payload.isChildCompleted) = [] := by
    rw [List.filter_eq_nil_iff]
    intro m hm
    simp only [List.mem_map] at hm
    obtain ⟨d, hd, rfl⟩ := hm
    simp [hds d hd]
  rw [hleft]
  simp [Payload.isChildCompleted]

/-- Witness for C5's amended theorem on the concrete completing turn. -/
theorem c5_witness :
    (handleTurn hEnvC msgFoo storePar).error = none ∧
    (handleTurn hEnvC msgFoo storePar).sent.filter
      (fun m => m.payload.isChildCompleted) =
      [⟨.childCompleted "s1", addSagaId msgFoo.headers "s0"⟩] ∧
    getHeader (addSagaId msgFoo.headers "s0") sagaUIDKey = some "s0" :=
  c5_child_completed_event hEnvC msgFoo storePar "s1" instPar
    completingHandler { progress instPar with status := .completed } []
    (by decide) (by decide) (by decide) rfl rfl rfl rfl
    (fun _ => rfl) rfl rfl (by decide) (by intro d hd; cases hd)

/-- C6: every delivery sent during a turn carries headers equal to the
incoming envelope's headers with `saga_uid` overwritten to the instance's
UID, and that stamping leaves the contents of the incoming envelope's
header map unchanged (the stamp writes the value the `saga_uid` header
already holds, since the instance was loaded by that very UID).  The
`SagaChildCompletedEvent` of the completion step is outside the delivery
loop and is excluded. -/
theorem c6_delivery_header_stamping (env : SagaEnv) (msg : IncomingMessage)
    (st : StoreState) (sagaId : String) (inst : Instance) (h : SagaHandler)
    (inst2 : Instance) (ds : List Delivery)
    (hex : extractSagaUID msg.headers = some sagaId)
    (hget : storeGet st sagaId = some inst)
    (hnc : inst.status ≠ .completed)
    (hh : env.eventHandlers msg.payload.groupKind = some h)
    (hrun : h (progress inst) = .ok (inst2, ds))
    (huid : inst.uid = sagaId)
    (huid2 : inst2.uid = inst.uid)
    (hsend : ∀ n, env.sendErr n = none)
    (hupd : env.updateErr = none) :
    (∀ m ∈ (handleTurn env msg st).sent, m.payload.isChildCompleted = false →
      m.headers = setHeader msg.headers sagaUIDKey inst2.uid) ∧
    setHeader msg.headers sagaUIDKey inst2.uid = msg.headers := by
  have hgk : getHeader msg.headers sagaUIDKey = some inst2.uid := by
    rw [huid2, huid]; exact hex
  have hstamp : setHeader msg.headers sagaUIDKey inst2.uid = msg.headers :=
    setHeader_eq_self _ _ _ hgk
  refine ⟨?_, hstamp⟩
  have hred := handleTurn_with_handler env msg st sagaId inst h inst2 ds
    hex hget hnc hh hrun hgk hsend
  rw [hred]
  intro m hm hnotchild
  rcases finishTurn_sent env msg st inst2 ds msg.headers
      (ds.map (fun d => ⟨d.payload, msg.headers⟩))
      ds.length true 0 hupd with hsent | hsent
  · rw [hsent] at hm
    obtain ⟨d, _, rfl⟩ := List.mem_map.mp hm
    simp [hstamp]
  · rw [hsent] at hm
    rcases List.mem_append.mp hm with hm1 | hm2
    · obtain ⟨d, _, rfl⟩ := List.mem_map.mp hm1
      simp [hstamp]
    · simp only [List.mem_singleton] at hm2
      subst hm2
      simp [Payload.isChildCompleted] at hnotchild

/-- Witness for C6 on the concrete delivering turn. -/
theorem c6_witness :
    (∀ m ∈ (handleTurn hEnvD msgFoo storeA).sent,
      m.payload.isChildCompleted = false →
      m.headers = setHeader msgFoo.headers sagaUIDKey "s1") ∧
    setHeader msgFoo.headers sagaUIDKey "s1" = msgFoo.headers :=
  c6_delivery_header_stamping hEnvD msgFoo storeA "s1" instA
    deliveringHandler (progress instA) [⟨.user ⟨"demo", "BarCommand"⟩ "b"⟩]
    (by decide) (by decide) (by decide) rfl rfl rfl rfl
    (fun _ => rfl) rfl

/-- C7 counterexample: with one worker permanently busy and a 2-tick
shutdown deadline, `Stop` returns when the context expires WITHOUT calling
`Transport.Disconnect`, while the claim asserts Disconnect is called in
either case. -/
theorem c7_counterexample :
    subscriberStop busyOne 2 = ⟨2, false, true⟩ ∧
    (subscriberStop busyOne 2).disconnected = false := by
  constructor <;> decide

/-- C7 as amended: `Stop` polls the busy-worker count once per second; if
the count reaches zero at some poll at or before the deadline, it returns
at the first such poll after calling `Transport.Disconnect`; if the count
stays positive through the deadline, it returns when the shutdown context
expires without calling `Transport.Disconnect`. -/
theorem c7_stop_polling (busy : Nat → Nat) (deadline : Nat) :
    ((∀ t, t ≤ deadline → busy t ≠ 0) →
      subscriberStop busy deadline = ⟨deadline, false, true⟩) ∧
    (∀ t0, t0 ≤ deadline → busy t0 = 0 → (∀ t, t < t0 → busy t ≠ 0) →
      subscriberStop busy deadline = ⟨t0, true, false⟩) := by
  constructor
  · intro hb
    have := stopGo_all_busy busy deadline 0
      (fun u hu1 hu2 => hb u (by omega))
    simpa [subscriberStop] using this
  · intro t0 h1 h0 hmin
    exact stopGo_finds busy deadline 0 t0 (Nat.zero_le _) (by omega) h0
      (fun u _ hu2 => hmin u hu2)

/-- Witness for C7's amended theorem: a never-draining count hits the
deadline without disconnect; a count that drains at tick 2 disconnects at
tick 2. -/
theorem c7_witness :
    subscriberStop busyOne 3 = ⟨3, false, true⟩ ∧
    subscriberStop busyW 10 = ⟨2, true, false⟩ :=
  ⟨(c7_stop_polling busyOne 3).1 (by decide),
   (c7_stop_polling busyW 10).2 2 (by decide) (by decide) (by decide)⟩

/-- C1 counterexample: saga `s1` has two persisted history rows (`a`, `b`)
while the instance passed to `Update` holds the single fresh event `c`.
The update succeeds, yet `c` — whose id is not persisted — is NOT
inserted, because the guard `len(ids) < len(HistoryEvents)` is false; this
refutes "inserts exactly those in-memory history events whose IDs are not
already persisted". -/
theorem c1_counterexample :
    (mysqlUpdate noFault dbC instC1).1 = none ∧
    instC1.history.map (fun m => m.id) = ["c"] ∧
    (dbC.history.map (fun r => r.id)).contains "c" = false ∧
    (mysqlUpdate noFault dbC instC1).2.history.map (fun r => r.id) =
      ["a", "b"] := by
  refine ⟨by decide, by decide, by decide, by decide⟩

/-- C1 as amended: `Update` runs as one transaction that overwrites the
saga row; on any error the transaction is rolled back and the stored state
is unchanged; on success the history table only grows; and WHEN the saga
has more in-memory history events than distinct persisted history ids, a
fault-free run inserts exactly those events whose ids are not yet
persisted (given fresh, pairwise-distinct new ids), while otherwise it
inserts nothing. -/
theorem c1_update_transactional (fault : Nat → Bool) (db : DB)
    (inst : Instance) :
    (∀ e, (mysqlUpdate fault db inst).1 = some e →
      (mysqlUpdate fault db inst).2 = db) ∧
    ((mysqlUpdate fault db inst).1 = none →
      ∃ newRows, (mysqlUpdate fault db inst).2 =
        ⟨db.sagas.map (overwriteSagaRow inst), db.history ++ newRows⟩) ∧
    ((∀ n, fault n = false) →
      (persistedIds db inst.uid).length < inst.history.length →
      (∀ m ∈ inst.history, (persistedIds db inst.uid).contains m.id = false →
        db.history.any (fun r => r.id = m.id) = false) →
      (inst.history.map (fun m => m.id)).Nodup →
      mysqlUpdate fault db inst =
        (none, ⟨db.sagas.map (overwriteSagaRow inst),
          db.history ++ (inst.history.filter
            (fun m => !(persistedIds db inst.uid).contains m.id)).map
            (historyRowOf inst.uid)⟩)) ∧
    ((∀ n, fault n = false) →
      inst.history.length ≤ (persistedIds db inst.uid).length →
      mysqlUpdate fault db inst =
        (none, ⟨db.sagas.map (overwriteSagaRow inst), db.history⟩)) := by
  refine ⟨mysqlUpdate_err_unchanged fault db inst,
    mysqlUpdate_ok_shape fault db inst, ?_, ?_⟩
  · intro hf hg hfresh hnodup
    have h0 : ¬ (fault 0 = true) := by rw [hf 0]; simp
    have h1 : ¬ (fault 1 = true) := by rw [hf 1]; simp
    have h2 : ¬ (fault 2 = true) := by rw [hf 2]; simp
    unfold mysqlUpdate
    simp only [h0, h1, h2, if_neg, if_false]
    rw [if_pos hg]
    rw [insertLoop_exact fault hf (persistedIds db inst.uid) inst.uid
      inst.history db.history 3 hfresh hnodup]
    have hcn : ¬ (fault (3 + (inst.history.filter
        (fun m => !(persistedIds db inst.uid).contains m.id)).length) = true) := by
      rw [hf _]; simp
    simp [hcn, hf]
  · intro hf hg
    have h0 : ¬ (fault 0 = true) := by rw [hf 0]; simp
    have h1 : ¬ (fault 1 = true) := by rw [hf 1]; simp
    have h2 : ¬ (fault 2 = true) := by rw [hf 2]; simp
    have h3 : ¬ (fault 3 = true) := by rw [hf 3]; simp
    have hng : ¬ ((persistedIds db inst.uid).length < inst.history.length) := by
      omega
    unfold mysqlUpdate
    simp only [h0, h1, h2, if_neg, if_false]
    rw [if_neg hng]
    simp [h3, hf]

/-- Witness for C1's amended theorem: a begin-fault leaves the database
unchanged, and a fault-free update of saga `s1` — holding persisted event
`a` plus fresh event `c` — inserts exactly the row for `c`. -/
theorem c1_witness :
    (mysqlUpdate beginFault dbW instW).2 = dbW ∧
    mysqlUpdate noFault dbW instW =
      (none, ⟨dbW.sagas.map (overwriteSagaRow instW),
        dbW.history ++ (instW.history.filter
          (fun m => !(persistedIds dbW instW.uid).contains m.id)).map
          (historyRowOf instW.uid)⟩) :=
  ⟨(c1_update_transactional beginFault dbW instW).1 "begin failed" (by decide),
   (c1_update_transactional noFault dbW instW).2.2.1 (fun _ => rfl)
     (by decide) (by decide) (by decide)⟩

theorem foldl_empty_filters (filters : List FilterOption)
    (hempty : ∀ f ∈ filters,
      f = withSagaId "" ∨ f = withStatus "" ∨ f = withSagaType "") :
    filters.foldl (fun o f => f o) ⟨"", "", ""⟩ = ⟨"", "", ""⟩ := by
  induction filters with
  | nil => rfl
  | cons f rest ih =>
    have hf := hempty f (List.mem_cons_self f rest)
    have hstep : f ⟨"", "", ""⟩ = ⟨"", "", ""⟩ := by
      rcases hf with rfl | rfl | rfl <;> rfl
    simp only [List.foldl_cons, hstep]
    exact ih (fun g hg => hempty g (List.mem_cons_of_mem f hg))

/-- C10: calling `GetByFilter` with a non-empty list of filters all of
whose values are empty strings returns an error and issues no database
query at all. -/
theorem c10_all_empty_filters_rejected (db : DB)
    (filters : List FilterOption)
    (hne : filters ≠ [])
    (hempty : ∀ f ∈ filters,
      f = withSagaId "" ∨ f = withStatus "" ∨ f = withSagaType "") :
    getByFilter db filters =
      (.error "All specified filters are empty, you have to specify at least one",
        []) := by
  unfold getByFilter
  have hne2 : filters.isEmpty = false := by
    cases filters with
    | nil => exact absurd rfl hne
    | cons f rest => rfl
  rw [hne2]
  simp only [Bool.false_eq_true, if_false]
  rw [foldl_empty_filters filters hempty]
  rfl

/-- Witness for C10: two filters, both with empty values, on the empty
database. -/
theorem c10_witness :
    getByFilter dbEmpty [withSagaId "", withStatus ""] =
      (.error "All specified filters are empty, you have to specify at least one",
        []) :=
  c10_all_empty_filters_rejected dbEmpty [withSagaId "", withStatus ""]
    (List.cons_ne_nil _ _)
    (by
      intro f hf
      rcases List.mem_cons.mp hf with rfl | hf2
      · exact Or.inl rfl
      · rcases List.mem_cons.mp hf2 with rfl | hf3
        · exact Or.inr (Or.inl rfl)
        · cases hf3)

end Brigadier
